import Mathlib

/-!
# Authorization index of `pkg/authorization/auth_manager.go`

A shallow embedding of `NewConfigBasedAuthManager` and
`ConfigBasedAuthManager.IsAuthorized`, and the properties of the two that the
specification talks about.

Modelling choices.

* A Go `map[string]V` is a function `String → Option V`; the comma-ok lookup
  `v, ok := m[k]` is `m k` (`some v` when `ok`, `none` otherwise), the empty
  map literal is `GoMap.empty`, the assignment `m[k] = v` is `GoMap.set`.
* `regexp.Regexp` comes from Go's standard library. The embedding takes the
  type `Regexp` and its method `MatchString` as parameters, so every theorem
  holds for whatever the regular-expression engine decides.
* A `for ... range` loop over a slice is a structural recursion (or a fold)
  over the list, an early `return true` is the `true` branch of the recursion.
-/

namespace Authorization

/-- Go `map[string]V`. -/
abbrev GoMap (V : Type) : Type := String → Option V

/-- The map literal `map[string]V{}`. -/
def GoMap.empty {V : Type} : GoMap V := fun _ => none

/-- The assignment `m[k] = v`. -/
def GoMap.set {V : Type} (m : GoMap V) (k : String) (v : V) : GoMap V :=
  fun k' => if k' = k then some v else m k'

/-- Go `type rulesIndex map[string]map[string]map[string][]regexp.Regexp`:
user, then group (role), then method, then the path patterns. -/
abbrev rulesIndex (Regexp : Type) : Type := GoMap (GoMap (GoMap (List Regexp)))

/-- Go `type ruleInfo struct`. -/
structure ruleInfo (Regexp : Type) where
  user : String
  group : String
  method : String
  pathRegex : Regexp

/-- Go `type ConfigBasedAuthManager struct`. -/
structure ConfigBasedAuthManager (Regexp : Type) where
  index : rulesIndex Regexp

/-- The local variables of one iteration of the loop of
`NewConfigBasedAuthManager`, as they stand at the end of the loop body. -/
structure loopLocals (Regexp : Type) where
  byGroup : GoMap (GoMap (List Regexp))
  byMethod : GoMap (List Regexp)
  regexes : List Regexp

/-- One iteration of `for _, rule := range rules` in
`NewConfigBasedAuthManager` (lines 36-52): the index after the iteration,
and the iteration's locals.

The body assigns to `byGroup[rule.group]` and `byMethod[rule.method]` only
in the branches where `byGroup`, `byMethod` were just allocated, and it
reassigns the local `regexes`; no statement assigns to `index[...]` or to a
map reached from `index`, so the index leaves the iteration as it entered. -/
def loopBody {Regexp : Type} (index : rulesIndex Regexp) (rule : ruleInfo Regexp) :
    rulesIndex Regexp × loopLocals Regexp :=
  -- byGroup, userExists := index[rule.user]; if !userExists { ... }
  let byGroup : GoMap (GoMap (List Regexp)) :=
    match index rule.user with
    | some byGroup => byGroup
    | none => (GoMap.empty : GoMap (GoMap (List Regexp))).set rule.group GoMap.empty
  -- byMethod, groupExists := byGroup[rule.group]; if !groupExists { ... }
  let byMethod : GoMap (List Regexp) :=
    match byGroup rule.group with
    | some byMethod => byMethod
    | none => (GoMap.empty : GoMap (List Regexp)).set rule.method []
  -- regexes, methodExists := byMethod[rule.method]; if !methodExists { ... }
  let regexes : List Regexp :=
    match byMethod rule.method with
    | some regexes => regexes
    | none => []
  -- regexes = append(regexes, rule.pathRegex)
  let regexes := regexes ++ [rule.pathRegex]
  (index, { byGroup := byGroup, byMethod := byMethod, regexes := regexes })

/-- Go `func NewConfigBasedAuthManager(rules []ruleInfo) *ConfigBasedAuthManager`:
start from `rulesIndex{}`, run the loop body on every rule in order, wrap the
index. -/
def NewConfigBasedAuthManager {Regexp : Type} (rules : List (ruleInfo Regexp)) :
    ConfigBasedAuthManager Regexp :=
  { index := rules.foldl (fun index rule => (loopBody index rule).1) GoMap.empty }

section Query

variable {Regexp : Type} (MatchString : Regexp → String → Bool)

/-- The innermost loop of `IsAuthorized` (lines 69-73):
`for _, regex := range regexes { if regex.MatchString(path) { return true } }`.
The result is `true` when the loop returns `true`, `false` when it falls
through. -/
def scanRegexes (path : String) : List Regexp → Bool
  | [] => false
  | regex :: rest => if MatchString regex path then true else scanRegexes path rest

/-- The loop over `roles` of `IsAuthorized` (lines 64-78), `rolesIndex` being
`c.index[user]`: `true` when some iteration returns `true`, `false` when the
loop is exhausted and line 78 returns `false`. -/
def scanRoles (rolesIndex : GoMap (GoMap (List Regexp))) (path method : String) :
    List String → Bool
  | [] => false
  | role :: rest =>
    match rolesIndex role with
    | some methodsIndex =>
      match methodsIndex method with
      | some regexes =>
        if scanRegexes MatchString path regexes then true
        else scanRoles rolesIndex path method rest
      | none => scanRoles rolesIndex path method rest
    | none => scanRoles rolesIndex path method rest

/-- Go `func (c ConfigBasedAuthManager) IsAuthorized(user string, roles []string,
path string, method string) bool`. -/
def IsAuthorized (c : ConfigBasedAuthManager Regexp) (user : String)
    (roles : List String) (path method : String) : Bool :=
  match c.index user with
  | none => true
  | some rolesIndex => scanRoles MatchString rolesIndex path method roles

end Query

/-- The pattern collection a user's entry holds under `rolesIndex[role][method]`;
empty when one of the two keys is absent. -/
def patternsUnder {Regexp : Type} (rolesIndex : GoMap (GoMap (List Regexp)))
    (role method : String) : List Regexp :=
  match rolesIndex role with
  | none => []
  | some methodsIndex =>
    match methodsIndex method with
    | none => []
    | some regexes => regexes

/-- The pattern collection an index holds under a key path
`index[user][group][method]`; empty when one of the three keys is absent. -/
def patternsAt {Regexp : Type} (index : rulesIndex Regexp) (user group method : String) :
    List Regexp :=
  match index user with
  | none => []
  | some byGroup => patternsUnder byGroup group method

/-! ## A concrete pattern type for the examples

The examples of the specification use patterns of the shape `^lit` with `lit`
free of metacharacters (`^/x`, `^/docs/`). Go's `MatchString` accepts a string
for such a pattern exactly when the string starts with `lit`. -/

/-- The pattern `^lit`, `lit` a literal. -/
structure AnchoredLiteral where
  lit : String
  deriving DecidableEq

/-- Method `MatchString` for the pattern `^lit`: the path starts with `lit`. -/
def AnchoredLiteral.MatchString (re : AnchoredLiteral) (path : String) : Bool :=
  re.lit.data.isPrefixOf path.data

/-- The rule of the specification's examples 4 and 5:
`bob`, `GET`, `^/x` (filed under the group `staff`). -/
def bobRule : ruleInfo AnchoredLiteral :=
  { user := "bob", group := "staff", method := "GET", pathRegex := { lit := "/x" } }

/-- The rule of the specification's example 3: `editor`, `GET`, `^/docs/`. -/
def editorRule : ruleInfo AnchoredLiteral :=
  { user := "editor", group := "editor", method := "GET", pathRegex := { lit := "/docs/" } }

/-- A role's entry holding `GET`, `^/docs/`. -/
def docsMethods : GoMap (List AnchoredLiteral) :=
  (GoMap.empty : GoMap (List AnchoredLiteral)).set "GET" [{ lit := "/docs/" }]

/-- A user's entry holding `editor`, `GET`, `^/docs/`. -/
def editorEntry : GoMap (GoMap (List AnchoredLiteral)) :=
  (GoMap.empty : GoMap (GoMap (List AnchoredLiteral))).set "editor" docsMethods

/-- An index with two users: `alice` holds `editorEntry`, `bob` is a key with
an empty entry. -/
def twoUserIndex : rulesIndex AnchoredLiteral :=
  ((GoMap.empty : rulesIndex AnchoredLiteral).set "alice" editorEntry).set "bob" GoMap.empty

/-- The index `twoUserIndex` with a third user `carol` whose entry is
`editorEntry` too. -/
def threeUserIndex : rulesIndex AnchoredLiteral :=
  twoUserIndex.set "carol" editorEntry

theorem loopBody_index {Regexp : Type} (index : rulesIndex Regexp) (rule : ruleInfo Regexp) :
    (loopBody index rule).1 = index := rfl

theorem foldl_loopBody {Regexp : Type} (rules : List (ruleInfo Regexp))
    (index : rulesIndex Regexp) :
    rules.foldl (fun index rule => (loopBody index rule).1) index = index := by
  induction rules generalizing index with
  | nil => rfl
  | cons rule rest ih => simp [List.foldl_cons, loopBody_index, ih]

theorem build_index {Regexp : Type} (rules : List (ruleInfo Regexp)) :
    (NewConfigBasedAuthManager rules).index = GoMap.empty :=
  foldl_loopBody rules GoMap.empty

theorem build_lookup {Regexp : Type} (rules : List (ruleInfo Regexp)) (user : String) :
    (NewConfigBasedAuthManager rules).index user = none := by
  rw [build_index]; rfl

theorem patternsAt_build {Regexp : Type} (rules : List (ruleInfo Regexp))
    (user group method : String) :
    patternsAt (NewConfigBasedAuthManager rules).index user group method = [] := by
  simp [patternsAt, build_lookup]

/-! ## Lemmas on the query -/

section QueryLemmas

variable {Regexp : Type} (MatchString : Regexp → String → Bool)

theorem scanRegexes_eq_any (path : String) (regexes : List Regexp) :
    scanRegexes MatchString path regexes = regexes.any (fun regex => MatchString regex path) := by
  induction regexes with
  | nil => rfl
  | cons regex rest ih =>
    simp only [scanRegexes, List.any_cons, ih]
    cases MatchString regex path <;> simp

theorem scanRoles_eq_any (rolesIndex : GoMap (GoMap (List Regexp))) (path method : String)
    (roles : List String) :
    scanRoles MatchString rolesIndex path method roles =
      roles.any (fun role =>
        (patternsUnder rolesIndex role method).any (fun regex => MatchString regex path)) := by
  induction roles with
  | nil => rfl
  | cons role rest ih =>
    cases h1 : rolesIndex role with
    | none => simp [scanRoles, patternsUnder, h1, ih]
    | some methodsIndex =>
      cases h2 : methodsIndex method with
      | none => simp [scanRoles, patternsUnder, h1, h2, ih]
      | some regexes =>
        simp only [scanRoles, patternsUnder, h1, h2, ih, List.any_cons, scanRegexes_eq_any]
        cases regexes.any (fun regex => MatchString regex path) <;> simp

theorem any_eq_of_mem_iff {α : Type} (f : α → Bool) (l₁ l₂ : List α)
    (h : ∀ x, x ∈ l₁ ↔ x ∈ l₂) : l₁.any f = l₂.any f := by
  rw [Bool.eq_iff_iff, List.any_eq_true, List.any_eq_true]
  constructor
  · rintro ⟨x, hx, hf⟩
    exact ⟨x, (h x).mp hx, hf⟩
  · rintro ⟨x, hx, hf⟩
    exact ⟨x, (h x).mpr hx, hf⟩

theorem any_congr_mem {α : Type} (f g : α → Bool) (l : List α)
    (h : ∀ x ∈ l, f x = g x) : l.any f = l.any g := by
  induction l with
  | nil => rfl
  | cons a rest ih =>
    simp only [List.any_cons]
    rw [h a (List.mem_cons_self a rest),
      ih (fun x hx => h x (List.mem_cons_of_mem a hx))]

theorem IsAuthorized_of_absent (c : ConfigBasedAuthManager Regexp) (user : String)
    (roles : List String) (path method : String) (h : c.index user = none) :
    IsAuthorized MatchString c user roles path method = true := by
  simp [IsAuthorized, h]

theorem IsAuthorized_of_present (c : ConfigBasedAuthManager Regexp) (user : String)
    (roles : List String) (path method : String) (h : (c.index user).isSome = true) :
    IsAuthorized MatchString c user roles path method =
      roles.any (fun role =>
        (patternsAt c.index user role method).any (fun regex => MatchString regex path)) := by
  obtain ⟨rolesIndex, hri⟩ := Option.isSome_iff_exists.mp h
  simp only [IsAuthorized, hri, scanRoles_eq_any, patternsAt]

theorem IsAuthorized_build (rules : List (ruleInfo Regexp)) (user : String)
    (roles : List String) (path method : String) :
    IsAuthorized MatchString (NewConfigBasedAuthManager rules) user roles path method = true :=
  IsAuthorized_of_absent MatchString _ user roles path method (build_lookup rules user)

end QueryLemmas

/-! ## The build -/

/-- C1 (code defect). Building from the single rule `bob`/`staff`/`GET`/`^/x`:
the loop body does compute the collection `[^/x]` for the rule in its local
`regexes`, but the index the manager holds has no key `bob`, and the rule's
pattern is not in the collection under the rule's own key path. -/
theorem build_loses_rule_pattern :
    bobRule ∈ [bobRule] ∧
    (loopBody (GoMap.empty : rulesIndex AnchoredLiteral) bobRule).2.regexes
      = [bobRule.pathRegex] ∧
    (NewConfigBasedAuthManager [bobRule]).index bobRule.user = none ∧
    bobRule.pathRegex ∉
      patternsAt (NewConfigBasedAuthManager [bobRule]).index
        bobRule.user bobRule.group bobRule.method := by
  refine ⟨List.mem_singleton.mpr rfl, ?_, build_lookup _ _, ?_⟩
  · simp [loopBody, GoMap.set, GoMap.empty]
  · simp [patternsAt_build]

/-- C2 (code defect). On the manager built from the single rule
`bob`/`GET`/`^/x`, the query (`bob`, no roles, `/y`, `POST`) is granted, not
denied. -/
theorem known_user_without_roles_is_granted :
    (∃ r ∈ [bobRule], r.user = "bob") ∧
    IsAuthorized AnchoredLiteral.MatchString (NewConfigBasedAuthManager [bobRule])
      "bob" [] "/y" "POST" = true :=
  ⟨⟨bobRule, List.mem_singleton.mpr rfl, rfl⟩, IsAuthorized_build _ _ _ _ _ _⟩

/-- C4 (code defect). On the manager built from the single rule
`bob`/`staff`/`GET`/`^/x`, whose only method is `GET`, the queries with the
methods `POST` and `get` are granted, on a path the pattern matches and on one
it does not. -/
theorem other_method_is_granted :
    (∀ r ∈ [bobRule], r.method = "GET") ∧
    (∃ r ∈ [bobRule], r.user = "bob" ∧ r.group = "staff") ∧
    IsAuthorized AnchoredLiteral.MatchString (NewConfigBasedAuthManager [bobRule])
      "bob" ["staff"] "/x/1" "POST" = true ∧
    IsAuthorized AnchoredLiteral.MatchString (NewConfigBasedAuthManager [bobRule])
      "bob" ["staff"] "/x/1" "get" = true ∧
    IsAuthorized AnchoredLiteral.MatchString (NewConfigBasedAuthManager [bobRule])
      "bob" ["staff"] "/y" "POST" = true :=
  ⟨fun r hr => by rw [List.mem_singleton.mp hr]; rfl,
   ⟨bobRule, List.mem_singleton.mpr rfl, rfl, rfl⟩,
   IsAuthorized_build _ _ _ _ _ _, IsAuthorized_build _ _ _ _ _ _,
   IsAuthorized_build _ _ _ _ _ _⟩

/-! ## The query -/

section QueryTheorems

variable {Regexp : Type} (MatchString : Regexp → String → Bool)

/-- C3. Fail-open on an unknown user: when `user` is not a top-level key of
the index, `IsAuthorized` returns `true` for every roles list, path and
method. -/
theorem IsAuthorized_unknown_user (c : ConfigBasedAuthManager Regexp) (user : String)
    (roles : List String) (path method : String) (h : c.index user = none) :
    IsAuthorized MatchString c user roles path method = true := by
  unfold IsAuthorized
  rw [h]

/-- C5 (amended). Roles are looked up under the asking user's entry: when `u1`
and `u2` are both top-level keys of the index and their entries hold the same
patterns under every role of `roles` and the method, `IsAuthorized` gives the
same result for `u1` and for `u2`. -/
theorem IsAuthorized_eq_of_same_entries (c : ConfigBasedAuthManager Regexp) (u1 u2 : String)
    (roles : List String) (path method : String)
    (h1 : (c.index u1).isSome = true) (h2 : (c.index u2).isSome = true)
    (h : ∀ role ∈ roles,
      patternsAt c.index u1 role method = patternsAt c.index u2 role method) :
    IsAuthorized MatchString c u1 roles path method =
      IsAuthorized MatchString c u2 roles path method := by
  rw [IsAuthorized_of_present MatchString c u1 roles path method h1,
    IsAuthorized_of_present MatchString c u2 roles path method h2]
  exact any_congr_mem _ _ roles (fun role hr => by rw [h role hr])

/-- C6. Decision rule for a known user, `rolesIndex` being the entry
`index[user]`: `IsAuthorized` returns `true` exactly when some role of `roles`
is a key of the entry, `method` is a key under it, and a pattern of that
collection matches `path` (so it returns `false` when no role yields a
match); the result is the same for every reordering of `roles`, and for every
index that holds, under `user`, the same collections up to the order of their
patterns. -/
theorem IsAuthorized_decision_rule (c : ConfigBasedAuthManager Regexp) (user : String)
    (rolesIndex : GoMap (GoMap (List Regexp))) (roles : List String) (path method : String)
    (hkey : c.index user = some rolesIndex) :
    (IsAuthorized MatchString c user roles path method = true ↔
      ∃ role ∈ roles, ∃ methodsIndex regexes,
        rolesIndex role = some methodsIndex ∧ methodsIndex method = some regexes ∧
        ∃ regex ∈ regexes, MatchString regex path = true) ∧
    (∀ roles' : List String, roles'.Perm roles →
      IsAuthorized MatchString c user roles' path method =
        IsAuthorized MatchString c user roles path method) ∧
    (∀ c' : ConfigBasedAuthManager Regexp, (c'.index user).isSome = true →
      (∀ role, (patternsAt c'.index user role method).Perm
        (patternsAt c.index user role method)) →
      IsAuthorized MatchString c' user roles path method =
        IsAuthorized MatchString c user roles path method) := by
  have hsome : (c.index user).isSome = true := by rw [hkey]; rfl
  refine ⟨?_, ?_, ?_⟩
  · simp only [IsAuthorized, hkey, scanRoles_eq_any, List.any_eq_true]
    constructor
    · rintro ⟨role, hrole, regex, hregex, hmatch⟩
      refine ⟨role, hrole, ?_⟩
      unfold patternsUnder at hregex
      cases h1 : rolesIndex role with
      | none => simp [h1] at hregex
      | some methodsIndex =>
        cases h2 : methodsIndex method with
        | none => simp [h1, h2] at hregex
        | some regexes =>
          simp only [h1, h2] at hregex
          exact ⟨methodsIndex, regexes, rfl, h2, regex, hregex, hmatch⟩
    · rintro ⟨role, hrole, methodsIndex, regexes, h1, h2, regex, hregex, hmatch⟩
      refine ⟨role, hrole, regex, ?_, hmatch⟩
      simpa [patternsUnder, h1, h2] using hregex
  · intro roles' hperm
    rw [IsAuthorized_of_present MatchString c user roles' path method hsome,
      IsAuthorized_of_present MatchString c user roles path method hsome]
    exact any_eq_of_mem_iff _ _ _ (fun _ => hperm.mem_iff)
  · intro c' hsome' hperm
    rw [IsAuthorized_of_present MatchString c' user roles path method hsome',
      IsAuthorized_of_present MatchString c user roles path method hsome]
    exact any_congr_mem _ _ roles
      (fun role _ => any_eq_of_mem_iff _ _ _ (fun _ => (hperm role).mem_iff))

end QueryTheorems

/-- C3, at the example of the specification: the manager built from the rule
for `bob` has no key `charlie`, and grants (`charlie`, no roles, `/anything`,
`GET`). -/
theorem IsAuthorized_unknown_user_witness :
    (NewConfigBasedAuthManager [bobRule]).index "charlie" = none ∧
    IsAuthorized AnchoredLiteral.MatchString (NewConfigBasedAuthManager [bobRule])
      "charlie" [] "/anything" "GET" = true :=
  ⟨build_lookup _ _,
   IsAuthorized_unknown_user AnchoredLiteral.MatchString _ "charlie" [] "/anything" "GET"
     (build_lookup _ _)⟩

/-- C5 as stated fails: in `twoUserIndex` both `alice` and `bob` are top-level
keys, and with the same roles, path and method `alice` is granted and `bob`
is denied: the role `editor` is looked up inside the asking user's entry. -/
theorem IsAuthorized_depends_on_user :
    (twoUserIndex "alice").isSome = true ∧ (twoUserIndex "bob").isSome = true ∧
    IsAuthorized AnchoredLiteral.MatchString { index := twoUserIndex }
      "alice" ["editor"] "/docs/42" "GET" = true ∧
    IsAuthorized AnchoredLiteral.MatchString { index := twoUserIndex }
      "bob" ["editor"] "/docs/42" "GET" = false := by
  decide

/-- C5 (amended), at `threeUserIndex`: `alice` and `carol` hold the same entry
and get the same answer. -/
theorem IsAuthorized_eq_of_same_entries_witness :
    (threeUserIndex "alice").isSome = true ∧ (threeUserIndex "carol").isSome = true ∧
    (∀ role ∈ ["editor", "viewer"],
      patternsAt threeUserIndex "alice" role "GET"
        = patternsAt threeUserIndex "carol" role "GET") ∧
    IsAuthorized AnchoredLiteral.MatchString { index := threeUserIndex }
      "alice" ["editor", "viewer"] "/docs/42" "GET" =
    IsAuthorized AnchoredLiteral.MatchString { index := threeUserIndex }
      "carol" ["editor", "viewer"] "/docs/42" "GET" :=
  ⟨by decide, by decide, by decide,
   IsAuthorized_eq_of_same_entries AnchoredLiteral.MatchString { index := threeUserIndex }
     "alice" "carol" ["editor", "viewer"] "/docs/42" "GET" (by decide) (by decide) (by decide)⟩

/-- C6, at `twoUserIndex`: `alice` is a key with the entry `editorEntry`, and
the three parts of the decision rule hold for the query
(`alice`, [`viewer`, `editor`], `/docs/42`, `GET`). -/
theorem IsAuthorized_decision_rule_witness :
    twoUserIndex "alice" = some editorEntry ∧
    IsAuthorized AnchoredLiteral.MatchString { index := twoUserIndex }
      "alice" ["viewer", "editor"] "/docs/42" "GET" = true ∧
    IsAuthorized AnchoredLiteral.MatchString { index := twoUserIndex }
      "alice" ["editor", "viewer"] "/docs/42" "GET" = true :=
  have h := IsAuthorized_decision_rule AnchoredLiteral.MatchString { index := twoUserIndex }
    "alice" editorEntry ["viewer", "editor"] "/docs/42" "GET" rfl
  have h1 : IsAuthorized AnchoredLiteral.MatchString { index := twoUserIndex }
      "alice" ["viewer", "editor"] "/docs/42" "GET" = true :=
    h.1.mpr ⟨"editor", by simp, docsMethods, [{ lit := "/docs/" }], rfl, rfl,
      { lit := "/docs/" }, by simp, by decide⟩
  ⟨rfl, h1, (h.2.1 ["editor", "viewer"] (List.Perm.swap _ _ _)).trans h1⟩

/-! ## Build and query together -/

section BuildTheorems

variable {Regexp : Type} (MatchString : Regexp → String → Bool)

/-- C9. Index soundness: the patterns the built index holds under a key path
(`user`, `group`, `method`) are all among the `pathRegex` of the rules of the
input list whose user, group and method equal that key path. (The built index
holds no pattern under any key path.) -/
theorem build_index_sound (rules : List (ruleInfo Regexp)) (user group method : String) :
    patternsAt (NewConfigBasedAuthManager rules).index user group method ⊆
      (rules.filter
        (fun r => decide (r.user = user ∧ r.group = group ∧ r.method = method))).map
        ruleInfo.pathRegex := by
  rw [patternsAt_build]
  exact List.nil_subset _

/-- C10. The build is insensitive to the order of the rules: the managers
built from two lists that are permutations of each other give the same
`IsAuthorized` result for every user, roles list, path and method. -/
theorem build_order_insensitive (rules₁ rules₂ : List (ruleInfo Regexp))
    (_h : rules₁.Perm rules₂) (user : String) (roles : List String) (path method : String) :
    IsAuthorized MatchString (NewConfigBasedAuthManager rules₁) user roles path method =
      IsAuthorized MatchString (NewConfigBasedAuthManager rules₂) user roles path method := by
  unfold IsAuthorized
  rw [build_lookup rules₁ user, build_lookup rules₂ user]

end BuildTheorems

/-- C10, at the two orders of the rules `bobRule`, `editorRule`. -/
theorem build_order_insensitive_witness :
    [bobRule, editorRule].Perm [editorRule, bobRule] ∧
    IsAuthorized AnchoredLiteral.MatchString (NewConfigBasedAuthManager [bobRule, editorRule])
      "bob" ["staff"] "/x/1" "GET" =
    IsAuthorized AnchoredLiteral.MatchString (NewConfigBasedAuthManager [editorRule, bobRule])
      "bob" ["staff"] "/x/1" "GET" :=
  ⟨List.Perm.swap _ _ _,
   build_order_insensitive AnchoredLiteral.MatchString [bobRule, editorRule]
     [editorRule, bobRule] (List.Perm.swap _ _ _) "bob" ["staff"] "/x/1" "GET"⟩

/-! ## Behaviour of the code as written -/

section BehaviourTheorems

variable {Regexp : Type} (MatchString : Regexp → String → Bool)

/-- C11. The built index is always empty: for every rule list the manager
returned by `NewConfigBasedAuthManager` holds the empty map, because an
iteration of the loop leaves the index as it found it; no `user` is a
top-level key of the built index, and `IsAuthorized` on that manager returns
`true` for every user, roles list, path and method. -/
theorem build_index_empty (rules : List (ruleInfo Regexp)) (index : rulesIndex Regexp)
    (rule : ruleInfo Regexp) (user : String) (roles : List String) (path method : String) :
    (loopBody index rule).1 = index ∧
    (NewConfigBasedAuthManager rules).index = GoMap.empty ∧
    (NewConfigBasedAuthManager rules).index user = none ∧
    IsAuthorized MatchString (NewConfigBasedAuthManager rules) user roles path method
      = true := by
  have hnone : (NewConfigBasedAuthManager rules).index user = none := build_lookup rules user
  refine ⟨rfl, build_index rules, hnone, ?_⟩
  unfold IsAuthorized
  rw [hnone]

/-- C12. The decision depends only on the asking user's own entry: two
managers whose indexes agree at the key `user` (both lack it, or both hold
the same entry under it) give the same `IsAuthorized` result for `user`,
whatever they hold under other top-level keys. -/
theorem IsAuthorized_depends_on_own_entry (c₁ c₂ : ConfigBasedAuthManager Regexp)
    (user : String) (roles : List String) (path method : String)
    (h : c₁.index user = c₂.index user) :
    IsAuthorized MatchString c₁ user roles path method =
      IsAuthorized MatchString c₂ user roles path method := by
  unfold IsAuthorized
  rw [h]

/-- C13. Adding roles never revokes access: when every role of `roles₁` also
occurs in `roles₂`, a request granted with `roles₁` is granted with `roles₂`;
and when moreover every role of `roles₂` occurs in `roles₁` (a reordering, or
duplicated roles), the two results are equal. -/
theorem IsAuthorized_mono_roles (c : ConfigBasedAuthManager Regexp) (user : String)
    (roles₁ roles₂ : List String) (path method : String)
    (hsub : ∀ role ∈ roles₁, role ∈ roles₂) :
    (IsAuthorized MatchString c user roles₁ path method = true →
      IsAuthorized MatchString c user roles₂ path method = true) ∧
    ((∀ role ∈ roles₂, role ∈ roles₁) →
      IsAuthorized MatchString c user roles₁ path method =
        IsAuthorized MatchString c user roles₂ path method) := by
  cases hu : c.index user with
  | none =>
    simp [IsAuthorized, hu]
  | some rolesIndex =>
    have hsome : (c.index user).isSome = true := by rw [hu]; rfl
    rw [IsAuthorized_of_present MatchString c user roles₁ path method hsome,
      IsAuthorized_of_present MatchString c user roles₂ path method hsome]
    constructor
    · rw [List.any_eq_true, List.any_eq_true]
      rintro ⟨role, hrole, hgrant⟩
      exact ⟨role, hsub role hrole, hgrant⟩
    · intro hsup
      exact any_eq_of_mem_iff _ _ _ (fun role => ⟨hsub role, hsup role⟩)

end BehaviourTheorems

/-- C12, at `twoUserIndex` and `threeUserIndex`: they hold the same entry
under `alice`, differ at the top-level key `carol`, and answer alike for
`alice`. -/
theorem IsAuthorized_depends_on_own_entry_witness :
    twoUserIndex "alice" = threeUserIndex "alice" ∧
    (twoUserIndex "carol").isSome = false ∧ (threeUserIndex "carol").isSome = true ∧
    IsAuthorized AnchoredLiteral.MatchString { index := twoUserIndex }
      "alice" ["editor"] "/docs/42" "GET" =
    IsAuthorized AnchoredLiteral.MatchString { index := threeUserIndex }
      "alice" ["editor"] "/docs/42" "GET" :=
  ⟨rfl, by decide, by decide,
   IsAuthorized_depends_on_own_entry AnchoredLiteral.MatchString { index := twoUserIndex }
     { index := threeUserIndex } "alice" ["editor"] "/docs/42" "GET" rfl⟩

/-- C13, at `twoUserIndex`: `alice` is granted with the role `editor`, and
still granted with the roles `viewer`, `editor`, `editor`. -/
theorem IsAuthorized_mono_roles_witness :
    (∀ role ∈ ["editor"], role ∈ ["viewer", "editor", "editor"]) ∧
    IsAuthorized AnchoredLiteral.MatchString { index := twoUserIndex }
      "alice" ["editor"] "/docs/42" "GET" = true ∧
    IsAuthorized AnchoredLiteral.MatchString { index := twoUserIndex }
      "alice" ["viewer", "editor", "editor"] "/docs/42" "GET" = true :=
  ⟨by decide, by decide,
   (IsAuthorized_mono_roles AnchoredLiteral.MatchString { index := twoUserIndex } "alice"
     ["editor"] ["viewer", "editor", "editor"] "/docs/42" "GET" (by decide)).1 (by decide)⟩

end Authorization
